import Mathlib

/-!
Verification of the download-cache core of the reels-downloader bot
(`src/services/downloader.py`), as a shallow embedding in Lean.

The embedding mirrors the Python source:
* `_get_url_hash` (lines 83-87): md5 of the URL after `re.sub` of the
  tracking-parameter regex, truncated to 16 hex characters.  md5 itself is
  implemented bit-for-bit (RFC 1321) so that hashes of concrete URLs can be
  computed inside Lean.
* the cache (`_load_cache`, `_save_cache`, `get_from_cache`, `add_to_cache`,
  `clear_cache`): the in-memory dict is an association list, the persisted
  `cache.json` a second association list, the filesystem a list of
  `(path, size)` pairs.
* `_download_sync` / `download`: the external `yt_dlp` extractor is an oracle
  (`Behavior`) describing what `extract_info` does on one call: raise
  `DownloadError`, raise some other exception, or return an info dict together
  with what the progress hook and `prepare_filename` report and the resulting
  state of the filesystem.
-/

namespace RDB

/-! ## md5 (RFC 1321), used by `_get_url_hash` -/

/-- The 32-bit truncation: md5 works on 32-bit words. -/
def mask32 (x : Nat) : Nat := x % 4294967296

/-- The 32-bit left rotation. -/
def rotl32 (x s : Nat) : Nat := ((x <<< s) ||| (x >>> (32 - s))) % 4294967296

/-- The 32-bit bitwise complement. -/
def not32 (x : Nat) : Nat := Nat.xor x 4294967295

/-- The md5 sine-derived constant table (RFC 1321, `K[i] = ⌊2^32·|sin(i+1)|⌋`). -/
def md5K : List Nat :=
  [3614090360, 3905402710, 606105819, 3250441966, 4118548399, 1200080426, 2821735955, 4249261313,
   1770035416, 2336552879, 4294925233, 2304563134, 1804603682, 4254626195, 2792965006, 1236535329,
   4129170786, 3225465664, 643717713, 3921069994, 3593408605, 38016083, 3634488961, 3889429448,
   568446438, 3275163606, 4107603335, 1163531501, 2850285829, 4243563512, 1735328473, 2368359562,
   4294588738, 2272392833, 1839030562, 4259657740, 2763975236, 1272893353, 4139469664, 3200236656,
   681279174, 3936430074, 3572445317, 76029189, 3654602809, 3873151461, 530742520, 3299628645,
   4096336452, 1126891415, 2878612391, 4237533241, 1700485571, 2399980690, 4293915773, 2240044497,
   1873313359, 4264355552, 2734768916, 1309151649, 4149444226, 3174756917, 718787259, 3951481745]

/-- The md5 per-round shift amounts (RFC 1321). -/
def md5S : List Nat :=
  [7, 12, 17, 22, 7, 12, 17, 22, 7, 12, 17, 22, 7, 12, 17, 22,
   5, 9, 14, 20, 5, 9, 14, 20, 5, 9, 14, 20, 5, 9, 14, 20,
   4, 11, 16, 23, 4, 11, 16, 23, 4, 11, 16, 23, 4, 11, 16, 23,
   6, 10, 15, 21, 6, 10, 15, 21, 6, 10, 15, 21, 6, 10, 15, 21]

/-- One md5 round: the mixing-function value and message index for round `i`. -/
def md5FG (i b c d : Nat) : Nat × Nat :=
  if i < 16 then ((Nat.land b c) ||| (Nat.land (not32 b) d), i)
  else if i < 32 then ((Nat.land d b) ||| (Nat.land (not32 d) c), (5 * i + 1) % 16)
  else if i < 48 then (Nat.xor (Nat.xor b c) d, (3 * i + 5) % 16)
  else (Nat.xor c (b ||| not32 d), (7 * i) % 16)

/-- The 64 rounds of one md5 block (`n` rounds remaining, state `(a,b,c,d)`). -/
def md5Rounds (m : List Nat) : Nat → Nat × Nat × Nat × Nat → Nat × Nat × Nat × Nat
  | 0, st => st
  | n + 1, (a, b, c, d) =>
    let i := 64 - (n + 1)
    let fg := md5FG i b c d
    let f := mask32 (fg.1 + a + (md5K.getD i 0) + (m.getD fg.2 0))
    md5Rounds m n (d, mask32 (b + rotl32 f (md5S.getD i 0)), b, c)

/-- Decode 4 little-endian bytes starting at position `4*j` of a block into a word. -/
def leWord (block : List Nat) (j : Nat) : Nat :=
  block.getD (4 * j) 0 + 256 * block.getD (4 * j + 1) 0 +
    65536 * block.getD (4 * j + 2) 0 + 16777216 * block.getD (4 * j + 3) 0

/-- Process one 64-byte block, updating the md5 state. -/
def md5Block (st : Nat × Nat × Nat × Nat) (block : List Nat) : Nat × Nat × Nat × Nat :=
  let m := (List.range 16).map (leWord block)
  let r := md5Rounds m 64 st
  (mask32 (st.1 + r.1), mask32 (st.2.1 + r.2.1), mask32 (st.2.2.1 + r.2.2.1),
   mask32 (st.2.2.2 + r.2.2.2))

/-- md5 padding: append `0x80`, zero-fill to 56 mod 64, then the 64-bit
little-endian bit length. -/
def md5Pad (msg : List Nat) : List Nat :=
  let len := msg.length
  let padLen := (55 + 64 - len % 64) % 64 + 1
  let bitLen := (8 * len) % 18446744073709551616
  msg ++ (128 :: List.replicate (padLen - 1) 0) ++
    (List.range 8).map (fun j => bitLen / (256 ^ j) % 256)

/-- Process the padded message 64 bytes at a time.  Fuel-driven structural
recursion so the kernel can evaluate it; the fuel is the padded length, ample
since each step consumes 64 bytes. -/
def md5Chunks : Nat → Nat × Nat × Nat × Nat → List Nat → Nat × Nat × Nat × Nat
  | 0, st, _ => st
  | _, st, [] => st
  | fuel + 1, st, l => md5Chunks fuel (md5Block st (l.take 64)) (l.drop 64)

/-- One byte as two lowercase hex characters. -/
def hexByte (b : Nat) : List Char :=
  let dig := fun n => if n < 10 then Char.ofNat (48 + n) else Char.ofNat (87 + n)
  [dig (b / 16 % 16), dig (b % 16)]

/-- One 32-bit word as 8 lowercase hex characters, little-endian byte order. -/
def hexWordLE (w : Nat) : List Char :=
  hexByte (w % 256) ++ hexByte (w / 256 % 256) ++ hexByte (w / 65536 % 256) ++
    hexByte (w / 16777216 % 256)

/-- md5 digest of a byte list, as the 32-character lowercase hex string that
Python's `hashlib.md5(...).hexdigest()` produces. -/
def md5hex (msg : List Nat) : String :=
  let padded := md5Pad msg
  let st := md5Chunks padded.length (1732584193, 4023233417, 2562383102, 271733878) padded
  String.mk (hexWordLE st.1 ++ hexWordLE st.2.1 ++ hexWordLE st.2.2.1 ++ hexWordLE st.2.2.2)

/-- UTF-8 encoding of one character, as Python's `str.encode()` produces. -/
def utf8Char (c : Char) : List Nat :=
  let v := c.toNat
  if v < 128 then [v]
  else if v < 2048 then [192 + v / 64, 128 + v % 64]
  else if v < 65536 then [224 + v / 4096, 128 + v / 64 % 64, 128 + v % 64]
  else [240 + v / 262144, 128 + v / 4096 % 64, 128 + v / 64 % 64, 128 + v % 64]

/-- UTF-8 encoding of a string (Python `str.encode()`). -/
def utf8Encode (s : String) : List Nat := (s.data.map utf8Char).flatten

set_option maxRecDepth 10000 in
/-- RFC 1321 test vector: md5 of the empty message. -/
theorem md5hex_rfc_empty : md5hex (utf8Encode "") = "d41d8cd98f00b204e9800998ecf8427e" := by
  decide

set_option maxRecDepth 10000 in
/-- RFC 1321 test vector: md5 of `"abc"`. -/
theorem md5hex_rfc_abc : md5hex (utf8Encode "abc") = "900150983cd24fb0d6963f7d28e17f72" := by
  decide

/-! ## The tracking-parameter regex of `_get_url_hash` (downloader.py line 86)

`re.sub(r'[?&](utm_\w+|si|feature|ref)=[^&]*', '', url)`: at each position,
either `?` or `&`, then one of the alternatives `utm_\w+`, `si`, `feature`,
`ref` (tried in this order), then `=`, then a greedy run of non-`&`
characters.  `re.sub` removes every non-overlapping leftmost match, resuming
the scan right after each removed match. -/

/-- Python's `\w` (ASCII range): letters, digits, underscore. -/
def isWordChar (c : Char) : Bool := c.isAlphanum || c = '_'

/-- The regex alternative `utm_\w+` followed by `=`: a literal `utm_`, a
maximal nonempty run of word characters, then `=`.  Returns the remainder
after the `=` on success. -/
def matchUtm (l : List Char) : Option (List Char) :=
  if ['u', 't', 'm', '_'].isPrefixOf l then
    let rest := l.drop 4
    let w := rest.takeWhile isWordChar
    let r := rest.dropWhile isWordChar
    if w = [] then none
    else if ['='].isPrefixOf r then some (r.drop 1) else none
  else none

/-- A fixed regex alternative `k` followed by `=`: returns the remainder after
the `=` on success. -/
def matchFixedKey (k l : List Char) : Option (List Char) :=
  if (k ++ ['=']).isPrefixOf l then some (l.drop (k.length + 1)) else none

/-- The group `(utm_\w+|si|feature|ref)=`, alternatives in the source's order.
Returns the remainder after the `=` on success. -/
def matchTrackKey (l : List Char) : Option (List Char) :=
  match matchUtm l with
  | some r => some r
  | none =>
    match matchFixedKey ['s', 'i'] l with
    | some r => some r
    | none =>
      match matchFixedKey ['f', 'e', 'a', 't', 'u', 'r', 'e'] l with
      | some r => some r
      | none => matchFixedKey ['r', 'e', 'f'] l

/-- The `re.sub` scan: walk the characters; at `?` or `&` try the key group;
on a match drop the `[^&]*` value and resume after it, otherwise keep the
character and move on.  Fuel-driven so the kernel can evaluate it; fuel equal
to the list length is always enough (each step consumes at least one
character). -/
def stripAux : Nat → List Char → List Char
  | 0, l => l
  | _, [] => []
  | fuel + 1, c :: rest =>
    if c = '?' || c = '&' then
      match matchTrackKey rest with
      | some afterEq => stripAux fuel (afterEq.dropWhile (· != '&'))
      | none => c :: stripAux fuel rest
    else c :: stripAux fuel rest

/-- Model of `re.sub(r'[?&](utm_\w+|si|feature|ref)=[^&]*', '', url)` — the
normalization step of `_get_url_hash` (downloader.py line 86). -/
def stripTracking (url : String) : String :=
  String.mk (stripAux url.data.length url.data)

/-- Model of `_get_url_hash` (downloader.py lines 83-87): md5 of the normalized URL,
truncated to 16 hex characters. -/
def _get_url_hash (url : String) : String :=
  (md5hex (utf8Encode (stripTracking url))).take 16

/-! ## URL classification (downloader.py lines 39-48, 121-139) -/

/-- Whether `needle` occurs as a contiguous sublist of `hay`. -/
def isInfixCh : List Char → List Char → Bool
  | needle, [] => needle.isEmpty
  | needle, h :: t => needle.isPrefixOf (h :: t) || isInfixCh needle t

/-- Substring test, modelling Python's `in` on strings (`re.search` of the
platform regexes is equivalent to a substring test since all the patterns are
alternations of literals). -/
def containsStr (hay needle : String) : Bool := isInfixCh needle.data hay.data

/-- Python's `str.lower()` (ASCII range, which covers every pattern the code
compares against). -/
def strLower (s : String) : String := String.mk (s.data.map Char.toLower)

/-- Model of `is_supported_url` (downloader.py lines 121-126): `re.search` of each
`SUPPORTED_PATTERNS` entry with `re.IGNORECASE`.  Every pattern is an
alternation of escaped literals, so matching means the lowercased URL contains
one of the literals. -/
def is_supported_url (url : String) : Bool :=
  containsStr (strLower url) "youtube.com" || containsStr (strLower url) "youtu.be" ||
    containsStr (strLower url) "instagram.com/reel" ||
    containsStr (strLower url) "instagram.com/p" ||
    containsStr (strLower url) "tiktok.com" || containsStr (strLower url) "vm.tiktok.com" ||
    containsStr (strLower url) "twitter.com" || containsStr (strLower url) "x.com"

/-- Model of `get_platform_name` (downloader.py lines 128-139). -/
def get_platform_name (url : String) : String :=
  if containsStr (strLower url) "youtube.com" || containsStr (strLower url) "youtu.be" then
    "YouTube"
  else if containsStr (strLower url) "instagram.com" then "Instagram"
  else if containsStr (strLower url) "tiktok.com" then "TikTok"
  else if containsStr (strLower url) "twitter.com" || containsStr (strLower url) "x.com" then
    "X/Twitter"
  else "Unknown"

/-! ## Data model -/

/-- Model of `DownloadResult` (downloader.py lines 24-32).  The `duration` float is
only stored and compared, never computed with, so it is modelled as `Rat`. -/
structure DownloadResult where
  success : Bool
  file_path : Option String := none
  title : Option String := none
  duration : Option Rat := none
  error : Option String := none
  from_cache : Bool := false
deriving DecidableEq, Repr

/-- One value of the cache dict (downloader.py lines 114-118).  `file_path` is
`Option` because a persisted `cache.json` edited from outside could lack the
key (the code guards every read with `data.get('file_path')` plus an
`isinstance` check). -/
structure CacheEntry where
  file_path : Option String := none
  title : Option String := none
  duration : Option Rat := none
deriving DecidableEq, Repr

/-- Python truthiness of an optional string: `None` and `""` are falsy. -/
def truthy : Option String → Bool
  | some s => s ≠ ""
  | none => false

/-- The filesystem, as the finite list of existing files with their sizes. -/
structure Disk where
  files : List (String × Nat)
deriving DecidableEq, Repr

/-- Model of `os.path.exists` — note `os.path.exists("")` is `False`. -/
def Disk.existsF (d : Disk) (p : String) : Bool := p ≠ "" && d.files.any (·.1 = p)

/-- Model of `os.path.getsize` (defined only when the file exists). -/
def Disk.getsize (d : Disk) (p : String) : Nat :=
  (((d.files.find? (·.1 = p)).map (·.2)).getD 0)

/-- Model of `os.remove`. -/
def Disk.remove (d : Disk) (p : String) : Disk := ⟨d.files.filter (fun q => !(q.1 = p))⟩

/-- Python-dict lookup in an association list keyed by url hash. -/
def dictGet (k : String) (l : List (String × CacheEntry)) : Option CacheEntry :=
  (l.find? (fun p => p.1 = k)).map (·.2)

/-- Python-dict assignment: overwrite in place if the key exists, else append
(insertion order preserved, as for a `dict`). -/
def dictSet (k : String) (v : CacheEntry) (l : List (String × CacheEntry)) :
    List (String × CacheEntry) :=
  if l.any (·.1 = k) then l.map (fun p => if p.1 = k then (k, v) else p) else l ++ [(k, v)]

/-- Python-dict `del`. -/
def dictDel (k : String) (l : List (String × CacheEntry)) : List (String × CacheEntry) :=
  l.filter (fun p => !(p.1 = k))

/-- The cache's state: the in-memory dict `self.cache` and the contents of the
persisted `cache.json`.  `_save_cache` (lines 75-81) rewrites the file with
the full mapping; its swallowed I/O failures are modelled as success, which
is the behaviour the claims describe. -/
structure CacheState where
  cache : List (String × CacheEntry)
  persisted : List (String × CacheEntry)
deriving DecidableEq, Repr

/-- Model of `_load_cache` (downloader.py lines 57-73): keep only entries whose
`file_path` is a truthy string naming an existing file. -/
def _load_cache (persisted : List (String × CacheEntry)) (d : Disk) :
    List (String × CacheEntry) :=
  persisted.filter (fun p =>
    match p.2.file_path with
    | some fp => d.existsF fp
    | none => false)

/-- Model of `get_from_cache` (downloader.py lines 89-108).  Returns the result (if
hit) and the updated cache state (stale entries are deleted and the deletion
persisted at once). -/
def get_from_cache (st : CacheState) (d : Disk) (url : String) :
    Option DownloadResult × CacheState :=
  match dictGet (_get_url_hash url) st.cache with
  | some cached =>
    match cached.file_path with
    | some fp =>
      if d.existsF fp then
        (some { success := true, file_path := some fp, title := cached.title,
                duration := cached.duration, from_cache := true }, st)
      else
        (none, ⟨dictDel (_get_url_hash url) st.cache, dictDel (_get_url_hash url) st.cache⟩)
    | none =>
      (none, ⟨dictDel (_get_url_hash url) st.cache, dictDel (_get_url_hash url) st.cache⟩)
  | none => (none, st)

/-- Model of `add_to_cache` (downloader.py lines 110-119). -/
def add_to_cache (st : CacheState) (url : String) (r : DownloadResult) : CacheState :=
  if r.success && truthy r.file_path then
    ⟨dictSet (_get_url_hash url)
       { file_path := r.file_path, title := r.title, duration := r.duration } st.cache,
     dictSet (_get_url_hash url)
       { file_path := r.file_path, title := r.title, duration := r.duration } st.cache⟩
  else st

/-- The file-deletion loop of `clear_cache` (downloader.py lines 464-473),
threading the filesystem and counting successful removals. -/
def clearFiles : List (String × CacheEntry) → Disk → Nat × Disk
  | [], d => (0, d)
  | (_, e) :: rest, d =>
    match e.file_path with
    | some fp =>
      if d.existsF fp then
        let r := clearFiles rest (d.remove fp)
        (r.1 + 1, r.2)
      else clearFiles rest d
    | none => clearFiles rest d

/-- Model of `clear_cache` (downloader.py lines 462-476): delete each entry's existing
backing file, then empty the mapping and persist the empty store. -/
def clear_cache (st : CacheState) (d : Disk) : Nat × CacheState × Disk :=
  let r := clearFiles st.cache d
  (r.1, ⟨[], []⟩, r.2)

/-! ## Path helpers used by `_download_sync` -/

/-- Model of `os.path.basename` (POSIX separator): the part after the last `/`. -/
def basename (p : String) : String :=
  String.mk ((p.data.reverse.takeWhile (· != '/')).reverse)

/-- Model of `s.split('.')[0]`: everything before the first dot. -/
def firstDotSegment (s : String) : String := String.mk (s.data.takeWhile (· != '.'))

/-- Model of `os.path.splitext(p)[0]`: drop the extension that starts at the last dot
of the final component, unless every character before that dot (within the
component) is itself a dot. -/
def splitextBase (p : String) : String :=
  let n := (basename p).data
  let pre := p.data.take (p.data.length - n.length)
  let revAfter := n.reverse.takeWhile (· != '.')
  if revAfter.length = n.length then p
  else
    let stemLen := n.length - revAfter.length - 1
    if (n.take stemLen).all (· = '.') then p
    else String.mk (pre ++ n.take stemLen)

/-- Index of the last dot in a file name, as `str.rfind('.')`. -/
def lastDotIdx (n : List Char) : Option Nat :=
  (n.reverse.findIdx? (· = '.')).map (fun r => n.length - 1 - r)

/-- Model of `pathlib.Path(...).stem`: name without its suffix; the dot must be at an
interior position (not first or last character). -/
def pathStem (n : List Char) : List Char :=
  match lastDotIdx n with
  | some i => if 0 < i ∧ i < n.length - 1 then n.take i else n
  | none => n

/-- Model of `pathlib.Path(...).suffix`. -/
def pathSuffix (n : List Char) : List Char :=
  match lastDotIdx n with
  | some i => if 0 < i ∧ i < n.length - 1 then n.drop i else []
  | none => []

/-- Whether `p` is a direct child of directory `dir` (used to model
`Path.iterdir`). -/
def inDir (dir p : String) : Bool :=
  (dir ++ "/").data.isPrefixOf p.data &&
    (p.data.drop (dir.data.length + 1)).all (· != '/') &&
    dir.data.length + 1 < p.data.length

/-- Model of `_find_downloaded_file` (downloader.py lines 447-460): first probe
`download_dir/file_id.ext` for the known extensions, then scan the directory
for any file whose stem starts with `file_id` and whose suffix is a known
video container. -/
def _find_downloaded_file (d : Disk) (dlDir : String) (file_id : String) : Option String :=
  let exact := (["mp4", "webm", "mkv", "mov", "avi"].map
      (fun e => dlDir ++ "/" ++ file_id ++ "." ++ e)).find? (fun p => d.existsF p)
  match exact with
  | some p => some p
  | none =>
    ((d.files.filter (fun q => inDir dlDir q.1)).find? (fun q =>
        let n := (basename q.1).data
        file_id.data.isPrefixOf (pathStem n) &&
          [".mp4", ".webm", ".mkv", ".mov", ".avi"].any
            (fun s => pathSuffix n = s.data))).map (·.1)

/-! ## The extraction adapter `_download_sync` (downloader.py lines 292-445)

`yt_dlp` is external; one call to `ydl.extract_info(url, download=True)` is
modelled by a `Behavior` oracle: it raises `yt_dlp.utils.DownloadError`,
raises some other exception, or returns an info dict together with the path
the progress hook reported (if any), the value `prepare_filename` produced
(`none` models both an exception there and a non-string result, which the
code treats alike), and the state of the filesystem after the call. -/

/-- A yt-dlp info dict, restricted to the keys the code reads.  `entries`
distinguishes a playlist-shaped response; its elements may be `None`.
`title = none` models a missing `title` key (so `info.get('title', 'Видео')`
yields the placeholder). -/
inductive Info where
  | mk : Option (List (Option Info)) → Option String → Option Rat → Info

def Info.entries : Info → Option (List (Option Info))
  | .mk e _ _ => e

def Info.title : Info → Option String
  | .mk _ t _ => t

def Info.duration : Info → Option Rat
  | .mk _ _ d => d

/-- What one `extract_info` call does. -/
inductive Behavior where
  | raisesDownloadError (msg : String) (disk : Disk)
  | raisesOther (msg : String) (disk : Disk)
  | returns (info : Option Info) (hookPath : Option String) (prepared : Option String)
      (disk : Disk)

/-- Outcome of one `attempt_download` call: a returned `DownloadResult`, a
propagated `yt_dlp.utils.DownloadError`, or another propagated exception —
each with the filesystem as the attempt left it. -/
inductive AttemptOut where
  | ok (r : DownloadResult) (d : Disk)
  | exnDownload (msg : String) (d : Disk)
  | exnOther (msg : String) (d : Disk)
deriving Repr

/-- The yt-dlp options `_download_sync` actually inspects: `cookiefile` (for
the retry decision) and `outtmpl` (for the fallback file search).  `download`
always builds `outtmpl` as a string (line 268), so the dict-shaped `outtmpl`
branch of the fallback is not reachable from the modelled entry point. -/
structure YdlOpts where
  cookiefile : Option String := none
  outtmpl : String
deriving DecidableEq, Repr

/-- Playlist handling (downloader.py lines 326-339): if `entries` is present
and non-empty, select the first entry that is not `None`; an empty or absent
`entries` means the dict itself is the video. -/
def selectEntry (i : Info) : Option Info :=
  match i.entries with
  | some es =>
    if es.isEmpty then some i
    else
      match es.findSome? id with
      | some e => some e
      | none => none
  | none => some i

/-- File-path resolution (downloader.py lines 344-361): prefer the progress
hook's path; otherwise take `prepare_filename`'s value and, if that exact
path does not exist, probe the alternate container extensions on the same
base; if none exists either, the non-existing prepared path is kept (the
existence check at line 364 then fails and the fallback scan runs). -/
def resolvePath (hook prepared : Option String) (d : Disk) : Option String :=
  if truthy hook then hook
  else
    match prepared with
    | none => hook
    | some p =>
      if p ≠ "" && !(d.existsF p) then
        match (["mp4", "webm", "mkv", "mov"].map
            (fun e => splitextBase p ++ "." ++ e)).find? (fun q => d.existsF q) with
        | some q => some q
        | none => some p
      else some p

/-- A failure `DownloadResult` (only `success=False, error=msg`, as every
failure constructor in the source). -/
def failR (msg : String) : DownloadResult := { success := false, error := some msg }

/-- The inner `attempt_download` closure (downloader.py lines 295-401) run
against one oracle `Behavior`.  `maxSize` is the `MAX_FILE_SIZE` config
constant used by the size check at line 367. -/
def attempt_download (maxSize : Nat) (dlDir : String) (opts : YdlOpts) (b : Behavior) :
    AttemptOut :=
  match b with
  | .raisesDownloadError m d => .exnDownload m d
  | .raisesOther m d => .exnOther m d
  | .returns info hook prepared d =>
    match info with
    | none => .ok (failR "Не удалось получить информацию о видео") d
    | some info0 =>
      match selectEntry info0 with
      | none => .ok (failR "Не удалось получить видео из плейлиста") d
      | some inf =>
        let title := inf.title.getD "Видео"
        let dur := inf.duration
        match resolvePath hook prepared d with
        | some p =>
          if p ≠ "" && d.existsF p then
            let sz := d.getsize p
            if sz > maxSize then
              .ok (failR ("Скачанный файл слишком большой (" ++ toString (sz / 1048576) ++
                "MB). Максимум: " ++ toString (maxSize / 1048576) ++ "MB")) (d.remove p)
            else .ok { success := true, file_path := some p, title := some title,
                       duration := dur } d
          else
            let fid := firstDotSegment (basename opts.outtmpl)
            match (if opts.outtmpl ≠ "" && fid ≠ "" then _find_downloaded_file d dlDir fid
                   else none) with
            | some f => .ok { success := true, file_path := some f, title := some title,
                              duration := dur } d
            | none => .ok (failR "Файл не был скачан") d
        | none =>
          let fid := firstDotSegment (basename opts.outtmpl)
          match (if opts.outtmpl ≠ "" && fid ≠ "" then _find_downloaded_file d dlDir fid
                 else none) with
          | some f => .ok { success := true, file_path := some f, title := some title,
                            duration := dur } d
          | none => .ok (failR "Файл не был скачан") d

/-- The retry trigger (downloader.py lines 410-413): a `cookiefile` option is
set and the `DownloadError` message mentions the Netscape cookies format. -/
def netscapeMsg (m : String) : Bool :=
  containsStr (strLower m) "does not look like a netscape format cookies file" ||
    containsStr (strLower m) "netscape format cookies file"

/-- The `DownloadError` classification chain (downloader.py lines 428-443). -/
def classifyError (m : String) : DownloadResult :=
  if containsStr (strLower m) "ffmpeg is not installed" then
    failR ("Нужен FFmpeg для скачивания этого видео (требуется склейка аудио+видео).\n" ++
      "Установите FFmpeg и добавьте его в PATH, затем попробуйте ещё раз.")
  else if containsStr m "Video unavailable" then failR "Видео недоступно"
  else if containsStr m "Private video" then failR "Это приватное видео"
  else if containsStr m "Sign in" || containsStr (strLower m) "login" then
    failR "Требуется авторизация для просмотра этого видео"
  else failR ("Ошибка скачивания: " ++ m.take 200)

/-- Model of `opts.pop('cookiefile', None)` on a copy (downloader.py lines 419-420). -/
def removeCookie (o : YdlOpts) : YdlOpts := { o with cookiefile := none }

/-- Model of `_download_sync` (downloader.py lines 292-445).  `b1` is the oracle for
the first `extract_info` call, `b2` for the (at most one) retry without
cookies.  The outer `except` clauses convert every propagated exception into
a failure result. -/
def _download_sync (maxSize : Nat) (dlDir : String) (opts : YdlOpts) (b1 b2 : Behavior) :
    DownloadResult × Disk :=
  match attempt_download maxSize dlDir opts b1 with
  | .ok r d => (r, d)
  | .exnOther m d => (failR ("Неожиданная ошибка: " ++ m.take 200), d)
  | .exnDownload m d =>
    if truthy opts.cookiefile && netscapeMsg m then
      match attempt_download maxSize dlDir (removeCookie opts) b2 with
      | .ok r d2 => (r, d2)
      | .exnDownload m2 d2 => (classifyError m2, d2)
      | .exnOther m2 d2 => (failR ("Неожиданная ошибка: " ++ m2.take 200), d2)
    else (classifyError m, d)

/-- The options `download` builds (downloader.py lines 266-270, 199-243):
`outtmpl = download_dir/file_id.%(ext)s`; `cookie` is the value
`_get_youtube_cookiefile` resolved to for this URL (`none` for non-YouTube
URLs or when the cookies file is absent or fails the format sniff). -/
def mkOpts (dlDir fileId : String) (cookie : Option String) : YdlOpts :=
  { cookiefile := cookie, outtmpl := dlDir ++ "/" ++ fileId ++ "." ++ "%(ext)s" }

/-- The policy message for unsupported URLs (downloader.py line 258). -/
def unsupportedMsg : String :=
  "URL не поддерживается. Поддерживаемые платформы: YouTube, Instagram, TikTok, X/Twitter"

/-- Model of `download` (downloader.py lines 245-290): reject unsupported URLs, serve
from cache, otherwise run `_download_sync` and write through to the cache on
success.  `fileId` is the random uuid prefix of line 267. -/
def download (maxSize : Nat) (dlDir : String) (cookie : Option String) (fileId : String)
    (st : CacheState) (d : Disk) (url : String) (b1 b2 : Behavior) :
    DownloadResult × CacheState × Disk :=
  if !(is_supported_url url) then (failR unsupportedMsg, st, d)
  else
    match get_from_cache st d url with
    | (some r, st1) => (r, st1, d)
    | (none, st1) =>
      let rd := _download_sync maxSize dlDir (mkOpts dlDir fileId cookie) b1 b2
      if rd.1.success then (rd.1, add_to_cache st1 url rd.1, rd.2)
      else (rd.1, st1, rd.2)

/-! ## Helper lemmas -/

theorem isInfixCh_iff (n h : List Char) : isInfixCh n h = true ↔ n <:+: h := by
  induction h with
  | nil => simp [isInfixCh, List.isEmpty_iff, List.infix_nil]
  | cons a t ih =>
    simp only [isInfixCh, Bool.or_eq_true, List.isPrefixOf_iff_prefix, ih,
      List.infix_cons_iff]

theorem containsStr_mono (l a b : String) (hab : isInfixCh b.data a.data = true)
    (h : containsStr l a = true) : containsStr l b = true := by
  unfold containsStr at h ⊢
  rw [isInfixCh_iff] at hab h ⊢
  exact hab.trans h

theorem existsF_ne_empty (d : Disk) (p : String) (h : d.existsF p = true) : p ≠ "" := by
  unfold Disk.existsF at h
  rcases Bool.and_eq_true _ _ |>.mp h with ⟨h1, _⟩
  exact of_decide_eq_true h1

theorem existsF_remove_self (d : Disk) (p : String) : (d.remove p).existsF p = false := by
  have h : ((d.files.filter (fun q => !(q.1 = p))).any (·.1 = p)) = false := by
    rw [List.any_eq_false]
    intro x hx
    rw [List.mem_filter] at hx
    simpa using hx.2
  simp [Disk.remove, Disk.existsF, h]

theorem existsF_remove_mono (d : Disk) (p q : String)
    (h : (d.remove p).existsF q = true) : d.existsF q = true := by
  unfold Disk.existsF Disk.remove at h
  unfold Disk.existsF
  rcases Bool.and_eq_true _ _ |>.mp h with ⟨h1, h2⟩
  rw [List.any_filter] at h2
  rw [Bool.and_eq_true]
  refine ⟨h1, ?_⟩
  rw [List.any_eq_true] at h2 ⊢
  obtain ⟨x, hx, hq⟩ := h2
  exact ⟨x, hx, (Bool.and_eq_true _ _ |>.mp hq).2⟩

theorem dictGet_dictSet_self (k : String) (v : CacheEntry) (l : List (String × CacheEntry)) :
    dictGet k (dictSet k v l) = some v := by
  induction l with
  | nil => simp [dictSet, dictGet]
  | cons p rest ih =>
    obtain ⟨pk, pv⟩ := p
    by_cases hp : pk = k
    · subst hp
      simp [dictSet, dictGet]
    · have hstep : dictSet k v ((pk, pv) :: rest) = (pk, pv) :: dictSet k v rest := by
        by_cases hany : rest.any (·.1 = k) <;> simp [dictSet, hany, hp]
      rw [hstep]
      unfold dictGet at ih ⊢
      rw [List.find?_cons_of_neg _ (by simpa using hp)]
      exact ih

theorem dictGet_dictDel_self (k : String) (l : List (String × CacheEntry)) :
    dictGet k (dictDel k l) = none := by
  unfold dictGet dictDel
  rw [Option.map_eq_none', List.find?_eq_none]
  intro x hx
  rw [List.mem_filter] at hx
  simpa using hx.2

theorem dictGet_filter_none (k : String) (q : String × CacheEntry → Bool)
    (l : List (String × CacheEntry)) (h : dictGet k l = none) :
    dictGet k (l.filter q) = none := by
  unfold dictGet at h ⊢
  rw [Option.map_eq_none', List.find?_eq_none] at h ⊢
  intro x hx
  exact h x (List.mem_of_mem_filter hx)

/-! ## Claim theorems -/

/-- C5: for every URL not matching any supported platform pattern,
`download(url)` returns `success=False` with the policy message, with the
cache state (both the in-memory mapping and the persisted file) and the
filesystem unchanged; the result does not depend on the extractor oracles, so
no extraction is invoked. -/
theorem c5_unsupported_rejected (maxSize : Nat) (dlDir : String) (cookie : Option String)
    (fileId : String) (st : CacheState) (d : Disk) (url : String) (b1 b2 : Behavior)
    (h : is_supported_url url = false) :
    download maxSize dlDir cookie fileId st d url b1 b2 = (failR unsupportedMsg, st, d) := by
  unfold download
  rw [h]
  rfl

/-- C5 witness at a concrete unsupported URL. -/
theorem c5_witness :
    is_supported_url "https://example.com/video" = false ∧
    download 1000 "dl" none "f" ⟨[], []⟩ ⟨[]⟩ "https://example.com/video"
        (.raisesOther "boom" ⟨[]⟩) (.raisesOther "boom" ⟨[]⟩) =
      (failR unsupportedMsg, ⟨[], []⟩, ⟨[]⟩) :=
  ⟨by decide,
   c5_unsupported_rejected 1000 "dl" none "f" ⟨[], []⟩ ⟨[]⟩ "https://example.com/video"
     (.raisesOther "boom" ⟨[]⟩) (.raisesOther "boom" ⟨[]⟩) (by decide)⟩

/-- C10: every URL accepted by `is_supported_url` is classified by
`get_platform_name` to one of the four named platforms, never `"Unknown"`. -/
theorem c10_supported_platform_named (url : String) (h : is_supported_url url = true) :
    get_platform_name url ≠ "Unknown" ∧
      get_platform_name url ∈ ["YouTube", "Instagram", "TikTok", "X/Twitter"] := by
  unfold is_supported_url at h
  simp only [Bool.or_eq_true] at h
  unfold get_platform_name
  split_ifs with h1 h2 h3 h4
  · exact ⟨by decide, by simp⟩
  · exact ⟨by decide, by simp⟩
  · exact ⟨by decide, by simp⟩
  · exact ⟨by decide, by simp⟩
  · exfalso
    simp only [Bool.or_eq_true] at h1 h4
    rcases h with ((((((hc | hc) | hc) | hc) | hc) | hc) | hc) | hc
    · exact h1 (Or.inl hc)
    · exact h1 (Or.inr hc)
    · exact h2 (containsStr_mono _ _ _ (by decide) hc)
    · exact h2 (containsStr_mono _ _ _ (by decide) hc)
    · exact h3 hc
    · exact h3 (containsStr_mono _ _ _ (by decide) hc)
    · exact h4 (Or.inl hc)
    · exact h4 (Or.inr hc)

/-- C10 witness at a concrete supported URL. -/
theorem c10_witness :
    is_supported_url "https://youtu.be/abc" = true ∧
    get_platform_name "https://youtu.be/abc" ≠ "Unknown" :=
  ⟨by decide, (c10_supported_platform_named "https://youtu.be/abc" (by decide)).1⟩

/-- C2: after `add_to_cache(url, r)` with a successful result whose file
exists, `get_from_cache(url)` returns a hit marked `from_cache=True` with the
same `file_path`, `title` and `duration` as `r`.  `get_from_cache` performs
only a dict lookup and an existence check, so no extraction is involved. -/
theorem c2_put_then_get (st : CacheState) (d : Disk) (url : String) (r : DownloadResult)
    (fp : String) (hs : r.success = true) (hfp : r.file_path = some fp)
    (hex : d.existsF fp = true) :
    (get_from_cache (add_to_cache st url r) d url).1 =
      some { success := true, file_path := some fp, title := r.title,
             duration := r.duration, from_cache := true } := by
  have hne : fp ≠ "" := existsF_ne_empty d fp hex
  have hd : (decide (fp ≠ "")) = true := by simp [hne]
  unfold add_to_cache
  rw [hs, hfp]
  simp only [truthy, hd, Bool.true_and, if_true]
  unfold get_from_cache
  simp only [dictGet_dictSet_self]
  simp [hex]

set_option maxRecDepth 100000 in
/-- C2 witness: a concrete put followed by a get. -/
theorem c2_witness :
    (⟨true, some "dl/v.mp4", some "t", none, none, false⟩ : DownloadResult).success = true ∧
    (get_from_cache
        (add_to_cache ⟨[], []⟩ "https://youtu.be/a" ⟨true, some "dl/v.mp4", some "t", none, none, false⟩)
        ⟨[("dl/v.mp4", 7)]⟩ "https://youtu.be/a").1 =
      some { success := true, file_path := some "dl/v.mp4", title := some "t",
             duration := none, from_cache := true } :=
  ⟨rfl,
   c2_put_then_get ⟨[], []⟩ ⟨[("dl/v.mp4", 7)]⟩ "https://youtu.be/a"
     ⟨true, some "dl/v.mp4", some "t", none, none, false⟩ "dl/v.mp4" rfl rfl (by decide)⟩

/-- C8: a cached entry whose backing file no longer exists is pruned on the
next `get_from_cache` for its URL: the call misses, the entry is removed from
the in-memory mapping, the removal is persisted at once, and the entry is
absent from a subsequent `_load_cache` of the persisted store. -/
theorem c8_stale_entry_pruned (st : CacheState) (d : Disk) (url : String) (e : CacheEntry)
    (fp : String) (h1 : dictGet (_get_url_hash url) st.cache = some e)
    (h2 : e.file_path = some fp) (h3 : d.existsF fp = false) :
    (get_from_cache st d url).1 = none ∧
    dictGet (_get_url_hash url) (get_from_cache st d url).2.cache = none ∧
    (get_from_cache st d url).2.persisted = (get_from_cache st d url).2.cache ∧
    dictGet (_get_url_hash url) (_load_cache (get_from_cache st d url).2.persisted d) = none := by
  have hdel := dictGet_dictDel_self (_get_url_hash url) st.cache
  simp [get_from_cache, h1, h2, h3, _load_cache, hdel, dictGet_filter_none _ _ _ hdel]

set_option maxRecDepth 100000 in
/-- C8 witness: a concrete stale entry is pruned and stays pruned. -/
theorem c8_witness :
    (get_from_cache
        ⟨[(_get_url_hash "https://youtu.be/a", ⟨some "gone.mp4", none, none⟩)],
         [(_get_url_hash "https://youtu.be/a", ⟨some "gone.mp4", none, none⟩)]⟩
        ⟨[]⟩ "https://youtu.be/a").1 = none ∧
    dictGet (_get_url_hash "https://youtu.be/a")
      (get_from_cache
        ⟨[(_get_url_hash "https://youtu.be/a", ⟨some "gone.mp4", none, none⟩)],
         [(_get_url_hash "https://youtu.be/a", ⟨some "gone.mp4", none, none⟩)]⟩
        ⟨[]⟩ "https://youtu.be/a").2.cache = none :=
  ⟨(c8_stale_entry_pruned _ ⟨[]⟩ "https://youtu.be/a" ⟨some "gone.mp4", none, none⟩
      "gone.mp4" (by simp [dictGet]) rfl (by decide)).1,
   (c8_stale_entry_pruned _ ⟨[]⟩ "https://youtu.be/a" ⟨some "gone.mp4", none, none⟩
      "gone.mp4" (by simp [dictGet]) rfl (by decide)).2.1⟩

theorem filter_ne_length (l : List (String × Nat)) (p : String)
    (hn : (l.map Prod.fst).Nodup) (h : l.any (·.1 = p) = true) :
    (l.filter (fun q => !(q.1 = p))).length + 1 = l.length := by
  induction l with
  | nil => simp at h
  | cons q rest ih =>
    rw [List.map_cons, List.nodup_cons] at hn
    by_cases hq : q.1 = p
    · have hrest : rest.filter (fun x => !(x.1 = p)) = rest := by
        rw [List.filter_eq_self]
        intro a ha
        have hne : a.1 ≠ p := by
          intro hap
          have : q.1 ∈ List.map Prod.fst rest := by
            rw [hq, ← hap]
            exact List.mem_map_of_mem Prod.fst ha
          exact hn.1 this
        simp [hne]
      simp [List.filter_cons, hq, hrest]
    · have h' : rest.any (·.1 = p) = true := by
        rw [List.any_cons] at h
        rcases Bool.or_eq_true _ _ |>.mp h with h1 | h1
        · exact absurd (of_decide_eq_true h1) hq
        · exact h1
      simp only [List.filter_cons, hq, decide_False, Bool.not_false, if_true]
      simp only [List.length_cons]
      have := ih hn.2 h'
      omega

theorem remove_nodup (d : Disk) (p : String) (hn : (d.files.map Prod.fst).Nodup) :
    ((d.remove p).files.map Prod.fst).Nodup :=
  ((d.files.filter_sublist).map Prod.fst).nodup hn

theorem remove_length (d : Disk) (p : String) (hn : (d.files.map Prod.fst).Nodup)
    (h : d.existsF p = true) : (d.remove p).files.length + 1 = d.files.length := by
  unfold Disk.existsF at h
  exact filter_ne_length d.files p hn (Bool.and_eq_true _ _ |>.mp h).2

theorem clearFiles_mono (c : List (String × CacheEntry)) (d : Disk) (p : String)
    (h : (clearFiles c d).2.existsF p = true) : d.existsF p = true := by
  induction c generalizing d with
  | nil => exact h
  | cons q rest ih =>
    obtain ⟨qk, qe⟩ := q
    cases hfp : qe.file_path with
    | none =>
      rw [clearFiles, hfp] at h
      exact ih d h
    | some fp =>
      by_cases hex : d.existsF fp
      · rw [clearFiles, hfp] at h
        simp only [hex, if_true] at h
        exact existsF_remove_mono d fp p (ih (d.remove fp) h)
      · rw [clearFiles, hfp] at h
        simp only [hex] at h
        exact ih d (by simpa using h)

theorem clearFiles_count (c : List (String × CacheEntry)) (d : Disk)
    (hn : (d.files.map Prod.fst).Nodup) :
    (clearFiles c d).1 + (clearFiles c d).2.files.length = d.files.length := by
  induction c generalizing d with
  | nil => simp [clearFiles]
  | cons q rest ih =>
    obtain ⟨qk, qe⟩ := q
    cases hfp : qe.file_path with
    | none =>
      rw [clearFiles, hfp]
      exact ih d hn
    | some fp =>
      by_cases hex : d.existsF fp
      · rw [clearFiles, hfp]
        simp only [hex, if_true]
        have h1 := ih (d.remove fp) (remove_nodup d fp hn)
        have h2 := remove_length d fp hn hex
        omega
      · rw [clearFiles, hfp]
        simp only [hex]
        simpa using ih d hn

theorem clearFiles_gone (c : List (String × CacheEntry)) (d : Disk) :
    ∀ k e fp, (k, e) ∈ c → e.file_path = some fp →
      (clearFiles c d).2.existsF fp = false := by
  induction c generalizing d with
  | nil =>
    intro k e fp h
    simp at h
  | cons q rest ih =>
    intro k e fp hmem hfp
    obtain ⟨qk, qe⟩ := q
    have notExists : ∀ dd : Disk, dd.existsF fp = false →
        (clearFiles rest dd).2.existsF fp = false := by
      intro dd hdd
      cases hval : (clearFiles rest dd).2.existsF fp with
      | false => rfl
      | true => exact absurd (clearFiles_mono rest dd fp hval) (by simp [hdd])
    rcases List.mem_cons.mp hmem with heq | hmem'
    · have hqe : qe = e := (Prod.mk.injEq _ _ _ _ |>.mp heq.symm).2
      subst hqe
      by_cases hex : d.existsF fp
      · rw [clearFiles, hfp]
        simp only [hex, if_true]
        exact notExists (d.remove fp) (existsF_remove_self d fp)
      · rw [clearFiles, hfp]
        simp only [hex]
        simpa using notExists d (by simpa using hex)
    · cases hqfp : qe.file_path with
      | none =>
        rw [clearFiles, hqfp]
        exact ih d k e fp hmem' hfp
      | some qfp =>
        by_cases hex : d.existsF qfp
        · rw [clearFiles, hqfp]
          simp only [hex, if_true]
          exact ih (d.remove qfp) k e fp hmem' hfp
        · rw [clearFiles, hqfp]
          simp only [hex]
          simpa using ih d k e fp hmem' hfp

/-- C9: `clear_cache` deletes the backing file of every entry whose file
exists (afterwards no entry's file remains), returns a count equal to the
number of files actually removed from the filesystem (the length drop of the
file table, given distinct paths), leaves the in-memory mapping empty, and
persists the empty store.  Entries with missing files contribute nothing to
the count but are removed all the same, since the whole mapping is cleared. -/
theorem c9_clear_cache (st : CacheState) (d : Disk)
    (hn : (d.files.map Prod.fst).Nodup) :
    (clear_cache st d).2.1.cache = [] ∧
    (clear_cache st d).2.1.persisted = [] ∧
    (clear_cache st d).1 + (clear_cache st d).2.2.files.length = d.files.length ∧
    (∀ k e fp, (k, e) ∈ st.cache → e.file_path = some fp →
      (clear_cache st d).2.2.existsF fp = false) := by
  refine ⟨rfl, rfl, clearFiles_count st.cache d hn, ?_⟩
  intro k e fp hm hfp
  exact clearFiles_gone st.cache d k e fp hm hfp

/-- C9 witness: two entries, one backing file present and one missing; the
count is 1, the mapping and store end empty, the present file is gone. -/
theorem c9_witness :
    ((Disk.mk [("a.mp4", 5), ("b.mp4", 3)]).files.map Prod.fst).Nodup ∧
    (clear_cache ⟨[("h1", ⟨some "a.mp4", none, none⟩), ("h2", ⟨some "gone.mp4", none, none⟩)], []⟩
        ⟨[("a.mp4", 5), ("b.mp4", 3)]⟩).1 = 1 ∧
    (clear_cache ⟨[("h1", ⟨some "a.mp4", none, none⟩), ("h2", ⟨some "gone.mp4", none, none⟩)], []⟩
        ⟨[("a.mp4", 5), ("b.mp4", 3)]⟩).2.1.cache = [] ∧
    (clear_cache ⟨[("h1", ⟨some "a.mp4", none, none⟩), ("h2", ⟨some "gone.mp4", none, none⟩)], []⟩
        ⟨[("a.mp4", 5), ("b.mp4", 3)]⟩).1 +
      (clear_cache ⟨[("h1", ⟨some "a.mp4", none, none⟩), ("h2", ⟨some "gone.mp4", none, none⟩)], []⟩
        ⟨[("a.mp4", 5), ("b.mp4", 3)]⟩).2.2.files.length = 2 :=
  ⟨by decide, by decide,
   (c9_clear_cache ⟨[("h1", ⟨some "a.mp4", none, none⟩), ("h2", ⟨some "gone.mp4", none, none⟩)], []⟩
      ⟨[("a.mp4", 5), ("b.mp4", 3)]⟩ (by decide)).1,
   (c9_clear_cache ⟨[("h1", ⟨some "a.mp4", none, none⟩), ("h2", ⟨some "gone.mp4", none, none⟩)], []⟩
      ⟨[("a.mp4", 5), ("b.mp4", 3)]⟩ (by decide)).2.2.1⟩

/-- Success shape: `success=True` with a non-null `file_path`. -/
def okShape (r : DownloadResult) : Prop := r.success = true ∧ r.file_path.isSome = true

/-- Failure shape: `success=False` with a non-null `error`. -/
def errShape (r : DownloadResult) : Prop := r.success = false ∧ r.error.isSome = true

/-- Exactly one of the two shapes holds. -/
def exactlyOneOk (r : DownloadResult) : Prop :=
  (okShape r ∨ errShape r) ∧ ¬(okShape r ∧ errShape r)

theorem exactlyOneOk_failR (m : String) : exactlyOneOk (failR m) := by
  simp [exactlyOneOk, okShape, errShape, failR]

theorem exactlyOneOk_classify (m : String) : exactlyOneOk (classifyError m) := by
  unfold classifyError
  split_ifs <;> exact exactlyOneOk_failR _

theorem attempt_ok_shape (maxSize : Nat) (dlDir : String) (opts : YdlOpts) (b : Behavior)
    (r : DownloadResult) (d : Disk) (h : attempt_download maxSize dlDir opts b = .ok r d) :
    exactlyOneOk r := by
  simp only [attempt_download] at h
  repeat' split at h
  all_goals
    first
      | (injection h with h1 h2
         subst h1
         simp [exactlyOneOk, okShape, errShape, failR])
      | simp at h

theorem sync_shape (maxSize : Nat) (dlDir : String) (opts : YdlOpts) (b1 b2 : Behavior) :
    exactlyOneOk (_download_sync maxSize dlDir opts b1 b2).1 := by
  cases hA : attempt_download maxSize dlDir opts b1 with
  | ok r d =>
    rw [_download_sync, hA]
    exact attempt_ok_shape _ _ _ _ _ _ hA
  | exnOther m d =>
    rw [_download_sync, hA]
    exact exactlyOneOk_failR _
  | exnDownload m d =>
    rw [_download_sync, hA]
    by_cases hc : (truthy opts.cookiefile && netscapeMsg m) = true
    · simp only [hc, if_true]
      cases hB : attempt_download maxSize dlDir (removeCookie opts) b2 with
      | ok r2 d2 => exact attempt_ok_shape _ _ _ _ _ _ hB
      | exnDownload m2 d2 => exact exactlyOneOk_classify m2
      | exnOther m2 d2 => exact exactlyOneOk_failR _
    · simp only [hc, Bool.false_eq_true, if_false]
      exact exactlyOneOk_classify m

theorem get_from_cache_shape (st : CacheState) (d : Disk) (url : String)
    (r : DownloadResult) (h : (get_from_cache st d url).1 = some r) : exactlyOneOk r := by
  unfold get_from_cache at h
  cases hg : dictGet (_get_url_hash url) st.cache with
  | none =>
    simp only [hg] at h
    exact absurd h (by simp)
  | some cached =>
    simp only [hg] at h
    cases hfp : cached.file_path with
    | none =>
      simp only [hfp] at h
      exact absurd h (by simp)
    | some fp =>
      simp only [hfp] at h
      by_cases hex : d.existsF fp = true
      · simp only [hex, if_true] at h
        injection h with h1
        subst h1
        simp [exactlyOneOk, okShape, errShape]
      · simp [hex] at h

theorem download_shape (maxSize : Nat) (dlDir : String) (cookie : Option String)
    (fileId : String) (st : CacheState) (d : Disk) (url : String) (b1 b2 : Behavior) :
    exactlyOneOk (download maxSize dlDir cookie fileId st d url b1 b2).1 := by
  unfold download
  by_cases hs : is_supported_url url
  · rw [hs]
    simp only [Bool.not_true, Bool.false_eq_true, if_false]
    rcases hg : get_from_cache st d url with ⟨o, st1⟩
    cases o with
    | some r =>
      exact get_from_cache_shape st d url r (by rw [hg])
    | none =>
      by_cases hsucc :
          (_download_sync maxSize dlDir (mkOpts dlDir fileId cookie) b1 b2).1.success = true <;>
        simpa [hsucc] using sync_shape maxSize dlDir (mkOpts dlDir fileId cookie) b1 b2
  · have hs' : is_supported_url url = false := by simpa using hs
    rw [hs']
    exact exactlyOneOk_failR _

/-- C7: every `DownloadResult` produced by `download`, `get_from_cache` or
`_download_sync` satisfies exactly one of: `success=True` with a non-null
`file_path`, or `success=False` with a non-null error message. -/
theorem c7_result_invariant (maxSize : Nat) (dlDir : String) (cookie : Option String)
    (fileId : String) (opts : YdlOpts) (st : CacheState) (d : Disk) (url : String)
    (b1 b2 : Behavior) :
    exactlyOneOk (download maxSize dlDir cookie fileId st d url b1 b2).1 ∧
    exactlyOneOk (_download_sync maxSize dlDir opts b1 b2).1 ∧
    (∀ r, (get_from_cache st d url).1 = some r → exactlyOneOk r) :=
  ⟨download_shape maxSize dlDir cookie fileId st d url b1 b2,
   sync_shape maxSize dlDir opts b1 b2,
   fun r h => get_from_cache_shape st d url r h⟩

set_option maxRecDepth 100000 in
/-- C7 witness at concrete inputs (a failing extraction and a cache hit). -/
theorem c7_witness :
    exactlyOneOk (download 1000 "dl" none "f" ⟨[], []⟩ ⟨[]⟩ "https://youtu.be/a"
      (.raisesOther "x" ⟨[]⟩) (.raisesOther "x" ⟨[]⟩)).1 ∧
    exactlyOneOk (_download_sync 1000 "dl" ⟨none, "dl/f.mp4"⟩
      (.raisesOther "x" ⟨[]⟩) (.raisesOther "x" ⟨[]⟩)).1 ∧
    exactlyOneOk { success := true, file_path := some "v.mp4", title := none,
                   duration := none, error := none, from_cache := true } :=
  ⟨(c7_result_invariant 1000 "dl" none "f" ⟨none, "dl/f.mp4"⟩ ⟨[], []⟩ ⟨[]⟩
      "https://youtu.be/a" (.raisesOther "x" ⟨[]⟩) (.raisesOther "x" ⟨[]⟩)).1,
   (c7_result_invariant 1000 "dl" none "f" ⟨none, "dl/f.mp4"⟩ ⟨[], []⟩ ⟨[]⟩
      "https://youtu.be/a" (.raisesOther "x" ⟨[]⟩) (.raisesOther "x" ⟨[]⟩)).2.1,
   (c7_result_invariant 1000 "dl" none "f" ⟨none, "dl/f.mp4"⟩
      ⟨[(_get_url_hash "https://youtu.be/a", ⟨some "v.mp4", none, none⟩)], []⟩
      ⟨[("v.mp4", 1)]⟩ "https://youtu.be/a" (.raisesOther "x" ⟨[]⟩)
      (.raisesOther "x" ⟨[]⟩)).2.2 _ (by decide)⟩

/-- C4: when the first extraction attempt raises a `DownloadError` whose
message reports a Netscape-cookies-format rejection and a `cookiefile` option
was set, exactly one further attempt runs, with the `cookiefile` option
removed; its outcome is returned as-is on success and classified on failure,
without consulting any further extractor behaviour (so no third attempt
exists).  When the retry trigger does not hold, the result is the
classification of the first failure, independent of the second oracle (no
retry at this layer). -/
theorem c4_cookie_retry_policy (maxSize : Nat) (dlDir : String) (opts : YdlOpts)
    (m : String) (d : Disk) (b2 : Behavior) :
    (truthy opts.cookiefile = true → netscapeMsg m = true →
      ((∀ r2 d2, attempt_download maxSize dlDir (removeCookie opts) b2 = .ok r2 d2 →
          _download_sync maxSize dlDir opts (.raisesDownloadError m d) b2 = (r2, d2)) ∧
       (∀ m2 d2, attempt_download maxSize dlDir (removeCookie opts) b2 = .exnDownload m2 d2 →
          _download_sync maxSize dlDir opts (.raisesDownloadError m d) b2 =
            (classifyError m2, d2)) ∧
       (∀ m2 d2, attempt_download maxSize dlDir (removeCookie opts) b2 = .exnOther m2 d2 →
          _download_sync maxSize dlDir opts (.raisesDownloadError m d) b2 =
            (failR ("Неожиданная ошибка: " ++ m2.take 200), d2)))) ∧
    (¬(truthy opts.cookiefile = true ∧ netscapeMsg m = true) →
      ∀ b2' : Behavior, _download_sync maxSize dlDir opts (.raisesDownloadError m d) b2' =
        (classifyError m, d)) := by
  have hA : attempt_download maxSize dlDir opts (.raisesDownloadError m d) =
      .exnDownload m d := rfl
  constructor
  · intro hc hm
    have hcond : (truthy opts.cookiefile && netscapeMsg m) = true := by
      rw [hc, hm]
      rfl
    refine ⟨?_, ?_, ?_⟩ <;> intro a2 d2 hB <;>
      simp only [_download_sync, hA, hcond, if_true, hB]
  · intro hnc b2'
    have hcond : (truthy opts.cookiefile && netscapeMsg m) = false := by
      cases hck : truthy opts.cookiefile with
      | false => rfl
      | true =>
        cases hms : netscapeMsg m with
        | false => rfl
        | true => exact absurd ⟨hck, hms⟩ hnc
    simp only [_download_sync, hA, hcond, Bool.false_eq_true, if_false]

/-- C4 witness: a Netscape-rejection failure with cookies set, followed by a
second failure that is classified (and would itself trigger no further
attempt). -/
theorem c4_witness :
    truthy (some "cookies.txt") = true ∧
    netscapeMsg "ERROR: does not look like a Netscape format cookies file" = true ∧
    _download_sync 1000 "dl" ⟨some "cookies.txt", "dl/f.mp4"⟩
        (.raisesDownloadError "ERROR: does not look like a Netscape format cookies file" ⟨[]⟩)
        (.raisesDownloadError "ERROR: Video unavailable" ⟨[]⟩) =
      (failR "Видео недоступно", ⟨[]⟩) := by
  refine ⟨by decide, by decide, ?_⟩
  have h := (c4_cookie_retry_policy 1000 "dl" ⟨some "cookies.txt", "dl/f.mp4"⟩
    "ERROR: does not look like a Netscape format cookies file" ⟨[]⟩
    (.raisesDownloadError "ERROR: Video unavailable" ⟨[]⟩)).1 (by decide) (by decide)
  have h2 := h.2.1 "ERROR: Video unavailable" ⟨[]⟩ rfl
  rw [h2]
  have : classifyError "ERROR: Video unavailable" = failR "Видео недоступно" := by decide
  rw [this]

theorem classify_fail (m : String) :
    (classifyError m).success = false ∧ (classifyError m).error.isSome = true := by
  unfold classifyError
  split_ifs <;> simp [failR]

theorem download_miss (maxSize : Nat) (dlDir : String) (cookie : Option String)
    (fileId : String) (st : CacheState) (d : Disk) (url : String) (b1 b2 : Behavior)
    (hsup : is_supported_url url = true) (hmiss : (get_from_cache st d url).1 = none) :
    (download maxSize dlDir cookie fileId st d url b1 b2).1 =
      (_download_sync maxSize dlDir (mkOpts dlDir fileId cookie) b1 b2).1 := by
  unfold download
  rw [hsup]
  simp only [Bool.not_true, Bool.false_eq_true, if_false]
  rcases hg : get_from_cache st d url with ⟨o, st1⟩
  rw [hg] at hmiss
  simp only at hmiss
  subst hmiss
  by_cases hsucc :
      (_download_sync maxSize dlDir (mkOpts dlDir fileId cookie) b1 b2).1.success = true <;>
    simp [hsucc]

/-- C6: exceptions raised by the extractor are converted into failure
results, never propagated: when the first `extract_info` raises a
non-`DownloadError` exception, `download` returns the generic
`Неожиданная ошибка` failure; when it raises a `DownloadError` outside the
cookie-retry trigger, `download` returns the classified failure; and when the
(at most one) retry also raises, `download` still returns a
`success=False` result carrying an error message.  Together with the fact
that the embedded `download` is a total function — mirroring the
`try`/`except` chain at lines 272-290 and 405-445, which catches every
`Exception` — no fault reaches the caller. -/
theorem c6_exceptions_become_failures (maxSize : Nat) (dlDir : String)
    (cookie : Option String) (fileId : String) (st : CacheState) (d : Disk) (url : String)
    (b1 b2 : Behavior) (hsup : is_supported_url url = true)
    (hmiss : (get_from_cache st d url).1 = none) :
    (∀ m dd, b1 = .raisesOther m dd →
        (download maxSize dlDir cookie fileId st d url b1 b2).1 =
          failR ("Неожиданная ошибка: " ++ m.take 200)) ∧
    (∀ m dd, b1 = .raisesDownloadError m dd →
        (truthy (mkOpts dlDir fileId cookie).cookiefile && netscapeMsg m) = false →
        (download maxSize dlDir cookie fileId st d url b1 b2).1 = classifyError m) ∧
    (∀ m dd m2 dd2, b1 = .raisesDownloadError m dd →
        (b2 = .raisesDownloadError m2 dd2 ∨ b2 = .raisesOther m2 dd2) →
        (download maxSize dlDir cookie fileId st d url b1 b2).1.success = false ∧
        (download maxSize dlDir cookie fileId st d url b1 b2).1.error.isSome = true) := by
  have hdl := download_miss maxSize dlDir cookie fileId st d url b1 b2 hsup hmiss
  refine ⟨?_, ?_, ?_⟩
  · intro m dd hb1
    subst hb1
    rw [hdl]
    rfl
  · intro m dd hb1 hcond
    subst hb1
    rw [hdl]
    have hA : attempt_download maxSize dlDir (mkOpts dlDir fileId cookie)
        (.raisesDownloadError m dd) = .exnDownload m dd := rfl
    simp only [_download_sync, hA, hcond, Bool.false_eq_true, if_false]
  · intro m dd m2 dd2 hb1 hb2
    subst hb1
    rw [hdl]
    have hA : attempt_download maxSize dlDir (mkOpts dlDir fileId cookie)
        (.raisesDownloadError m dd) = .exnDownload m dd := rfl
    by_cases hcond :
        (truthy (mkOpts dlDir fileId cookie).cookiefile && netscapeMsg m) = true
    · rcases hb2 with hb2 | hb2 <;> subst hb2
      · have hB : attempt_download maxSize dlDir (removeCookie (mkOpts dlDir fileId cookie))
            (.raisesDownloadError m2 dd2) = .exnDownload m2 dd2 := rfl
        simp only [_download_sync, hA, hcond, if_true, hB]
        exact classify_fail m2
      · have hB : attempt_download maxSize dlDir (removeCookie (mkOpts dlDir fileId cookie))
            (.raisesOther m2 dd2) = .exnOther m2 dd2 := rfl
        simp only [_download_sync, hA, hcond, if_true, hB]
        exact ⟨rfl, rfl⟩
    · have hcond' :
          (truthy (mkOpts dlDir fileId cookie).cookiefile && netscapeMsg m) = false := by
        simpa using hcond
      simp only [_download_sync, hA, hcond', Bool.false_eq_true, if_false]
      exact classify_fail m

set_option maxRecDepth 100000 in
/-- C6 witness: a crashing extractor on a supported, uncached URL yields the
generic failure result. -/
theorem c6_witness :
    is_supported_url "https://youtu.be/a" = true ∧
    (download 1000 "dl" none "f" ⟨[], []⟩ ⟨[]⟩ "https://youtu.be/a"
        (.raisesOther "Extractor crash" ⟨[]⟩) (.raisesOther "x" ⟨[]⟩)).1 =
      failR ("Неожиданная ошибка: " ++ "Extractor crash".take 200) :=
  ⟨by decide,
   (c6_exceptions_become_failures 1000 "dl" none "f" ⟨[], []⟩ ⟨[]⟩ "https://youtu.be/a"
      (.raisesOther "Extractor crash" ⟨[]⟩) (.raisesOther "x" ⟨[]⟩) (by decide)
      (by decide)).1 "Extractor crash" ⟨[]⟩ rfl⟩

/-- C3 (amended): when the artifact path is resolved through the progress
hook or the prepared-filename strategy (`resolvePath`) and the file exceeds
`MAX_FILE_SIZE`, `_download_sync` deletes the file and returns the
size-exceeded failure. -/
theorem c3_amended_size_check (maxSize : Nat) (dlDir : String) (opts : YdlOpts)
    (b2 : Behavior) (info : Info) (hook prepared : Option String) (d : Disk) (inf : Info)
    (p : String) (hsel : selectEntry info = some inf)
    (hres : resolvePath hook prepared d = some p) (hex : d.existsF p = true)
    (hsz : d.getsize p > maxSize) :
    _download_sync maxSize dlDir opts (.returns (some info) hook prepared d) b2 =
      (failR ("Скачанный файл слишком большой (" ++ toString (d.getsize p / 1048576) ++
        "MB). Максимум: " ++ toString (maxSize / 1048576) ++ "MB"), d.remove p) ∧
    (d.remove p).existsF p = false := by
  have hne : (decide (p ≠ "")) = true := by simp [existsF_ne_empty d p hex]
  constructor
  · simp only [_download_sync, attempt_download, hsel, hres, hne, hex, Bool.and_self,
      if_true, hsz]
  · exact existsF_remove_self d p

/-- C3 counterexample to the claim as stated: when the artifact is located
via the fallback directory scan (`_find_downloaded_file`), no size check
runs — `_download_sync` returns `success=True` for a file of 2000 bytes
although the configured ceiling is 1000, and the file stays on disk. -/
theorem c3_counterexample :
    _download_sync 1000 "dl" ⟨none, "dl/abcd1234.%(ext)s"⟩
        (.returns (some (Info.mk none (some "t") none)) none none
          ⟨[("dl/abcd1234.mp4", 2000)]⟩) (.raisesOther "x" ⟨[]⟩) =
      ({ success := true, file_path := some "dl/abcd1234.mp4", title := some "t",
         duration := none, error := none, from_cache := false },
       ⟨[("dl/abcd1234.mp4", 2000)]⟩) ∧
    Disk.getsize ⟨[("dl/abcd1234.mp4", 2000)]⟩ "dl/abcd1234.mp4" = 2000 ∧
    1000 < 2000 := by
  refine ⟨?_, by decide, by decide⟩
  rfl

/-- C3 witness for the amended theorem: an oversized artifact located via the
progress hook is deleted and reported as a size failure. -/
theorem c3_witness :
    Disk.existsF ⟨[("dl/big.mp4", 5000)]⟩ "dl/big.mp4" = true ∧
    Disk.getsize ⟨[("dl/big.mp4", 5000)]⟩ "dl/big.mp4" > 1000 ∧
    _download_sync 1000 "dl" ⟨none, "dl/f.%(ext)s"⟩
        (.returns (some (Info.mk none (some "t") none)) (some "dl/big.mp4") none
          ⟨[("dl/big.mp4", 5000)]⟩) (.raisesOther "x" ⟨[]⟩) =
      (failR ("Скачанный файл слишком большой (" ++
        toString (Disk.getsize ⟨[("dl/big.mp4", 5000)]⟩ "dl/big.mp4" / 1048576) ++
        "MB). Максимум: " ++ toString (1000 / 1048576) ++ "MB"),
       Disk.remove ⟨[("dl/big.mp4", 5000)]⟩ "dl/big.mp4") :=
  ⟨by decide, by decide,
   (c3_amended_size_check 1000 "dl" ⟨none, "dl/f.%(ext)s"⟩ (.raisesOther "x" ⟨[]⟩)
      (Info.mk none (some "t") none) (some "dl/big.mp4") none ⟨[("dl/big.mp4", 5000)]⟩
      (Info.mk none (some "t") none) "dl/big.mp4" rfl rfl (by decide) (by decide)).1⟩

/-! ## Lemmas about the tracking-parameter regex (for claim C1)

The key structural facts: appending `'&' :: t` to a string cannot complete a
partially-matched key (no key contains `'&'`), cannot extend a `\w+` run, and
stops a `[^&]*` value run exactly at the boundary. -/

theorem stripAux_nil (f : Nat) : stripAux f [] = [] := by
  cases f <;> rfl

theorem isPrefixOf_append_amp (k : List Char) :
    ∀ (x t : List Char), '&' ∉ k → (k.isPrefixOf (x ++ '&' :: t) = k.isPrefixOf x) := by
  induction k with
  | nil => intro x t _; simp [List.isPrefixOf]
  | cons a k' ih =>
    intro x t hk
    have ha : a ≠ '&' := by
      intro h
      exact hk (h ▸ List.mem_cons_self a k')
    have hk' : '&' ∉ k' := fun h => hk (List.mem_cons_of_mem a h)
    cases x with
    | nil =>
      have : (a == '&') = false := by
        simpa using ha
      simp [List.isPrefixOf, this]
    | cons b x' =>
      simp only [List.cons_append, List.isPrefixOf, List.append_eq]
      rw [ih x' t hk']

theorem takeWhile_append_stop (p : Char → Bool) (b : Char) (hb : p b = false) :
    ∀ (x t : List Char), (x ++ b :: t).takeWhile p = x.takeWhile p := by
  intro x t
  induction x with
  | nil => simp [List.takeWhile_cons, hb]
  | cons a x' ih =>
    simp only [List.cons_append, List.takeWhile_cons]
    cases ha : p a <;> simp [ha, ih]

theorem dropWhile_append_stop (p : Char → Bool) (b : Char) (hb : p b = false) :
    ∀ (x t : List Char), (x ++ b :: t).dropWhile p = x.dropWhile p ++ b :: t := by
  intro x t
  induction x with
  | nil => simp [List.dropWhile_cons, hb]
  | cons a x' ih =>
    simp only [List.cons_append, List.dropWhile_cons]
    cases ha : p a <;> simp [ha, ih]

theorem dropWhile_all_true (p : Char → Bool) :
    ∀ (l : List Char), (∀ x ∈ l, p x = true) → l.dropWhile p = [] := by
  intro l h
  induction l with
  | nil => rfl
  | cons a l' ih =>
    rw [List.dropWhile_cons, if_pos (h a (List.mem_cons_self a l'))]
    exact ih fun x hx => h x (List.mem_cons_of_mem a hx)

theorem takeWhile_all_true (p : Char → Bool) :
    ∀ (l : List Char), (∀ x ∈ l, p x = true) → l.takeWhile p = l := by
  intro l h
  induction l with
  | nil => rfl
  | cons a l' ih =>
    rw [List.takeWhile_cons, if_pos (h a (List.mem_cons_self a l'))]
    rw [ih fun x hx => h x (List.mem_cons_of_mem a hx)]

theorem matchUtm_append (x t : List Char) :
    matchUtm (x ++ '&' :: t) = (matchUtm x).map (· ++ '&' :: t) := by
  unfold matchUtm
  rw [isPrefixOf_append_amp ['u', 't', 'm', '_'] x t (by decide)]
  by_cases hp : (['u', 't', 'm', '_'].isPrefixOf x) = true
  · simp only [hp, if_true]
    have hx4 : 4 ≤ x.length := by
      simpa using (List.isPrefixOf_iff_prefix.mp hp).length_le
    rw [List.drop_append_of_le_length hx4]
    rw [takeWhile_append_stop isWordChar '&' (by decide) (x.drop 4) t]
    rw [dropWhile_append_stop isWordChar '&' (by decide) (x.drop 4) t]
    by_cases hw : (x.drop 4).takeWhile isWordChar = []
    · simp [hw]
    · simp only [hw, if_false]
      rw [isPrefixOf_append_amp ['='] _ t (by decide)]
      by_cases he : (['='].isPrefixOf ((x.drop 4).dropWhile isWordChar)) = true
      · simp only [he, if_true]
        have h1 : 1 ≤ ((x.drop 4).dropWhile isWordChar).length := by
          simpa using (List.isPrefixOf_iff_prefix.mp he).length_le
        rw [List.drop_append_of_le_length h1]
        simp
      · simp [he]
  · simp [hp]

theorem matchFixedKey_append (k x t : List Char) (hk : '&' ∉ k) :
    matchFixedKey k (x ++ '&' :: t) = (matchFixedKey k x).map (· ++ '&' :: t) := by
  unfold matchFixedKey
  have hk' : '&' ∉ k ++ ['='] := by
    intro h
    rcases List.mem_append.mp h with h | h
    · exact hk h
    · simp at h
  rw [isPrefixOf_append_amp (k ++ ['=']) x t hk']
  by_cases hp : ((k ++ ['=']).isPrefixOf x) = true
  · simp only [hp, if_true]
    have hlen : k.length + 1 ≤ x.length := by
      simpa using (List.isPrefixOf_iff_prefix.mp hp).length_le
    rw [List.drop_append_of_le_length hlen]
    simp
  · simp [hp]

theorem matchTrackKey_append (x t : List Char) :
    matchTrackKey (x ++ '&' :: t) = (matchTrackKey x).map (· ++ '&' :: t) := by
  unfold matchTrackKey
  rw [matchUtm_append]
  cases matchUtm x with
  | some r => simp
  | none =>
    simp only [Option.map_none']
    rw [matchFixedKey_append ['s', 'i'] x t (by decide)]
    cases matchFixedKey ['s', 'i'] x with
    | some r => simp
    | none =>
      simp only [Option.map_none']
      rw [matchFixedKey_append ['f', 'e', 'a', 't', 'u', 'r', 'e'] x t (by decide)]
      cases matchFixedKey ['f', 'e', 'a', 't', 'u', 'r', 'e'] x with
      | some r => simp
      | none =>
        simp only [Option.map_none']
        rw [matchFixedKey_append ['r', 'e', 'f'] x t (by decide)]

theorem matchUtm_length (l r : List Char) (h : matchUtm l = some r) :
    r.length ≤ l.length := by
  unfold matchUtm at h
  by_cases hp : (['u', 't', 'm', '_'].isPrefixOf l) = true
  · simp only [hp, if_true] at h
    by_cases hw : (l.drop 4).takeWhile isWordChar = []
    · simp [hw] at h
    · simp only [hw, if_false] at h
      by_cases he : (['='].isPrefixOf ((l.drop 4).dropWhile isWordChar)) = true
      · simp only [he, if_true, Option.some.injEq] at h
        subst h
        have h1 : ((l.drop 4).dropWhile isWordChar).length ≤ (l.drop 4).length :=
          (List.dropWhile_sublist isWordChar).length_le
        have h2 := List.length_drop 4 l
        have h3 := List.length_drop 1 ((l.drop 4).dropWhile isWordChar)
        omega
      · simp [he] at h
  · simp [hp] at h

theorem matchFixedKey_length (k l r : List Char) (h : matchFixedKey k l = some r) :
    r.length ≤ l.length := by
  unfold matchFixedKey at h
  by_cases hp : ((k ++ ['=']).isPrefixOf l) = true
  · simp only [hp, if_true, Option.some.injEq] at h
    subst h
    have := List.length_drop (k.length + 1) l
    omega
  · simp [hp] at h

theorem matchTrackKey_length (l r : List Char) (h : matchTrackKey l = some r) :
    r.length ≤ l.length := by
  unfold matchTrackKey at h
  cases hu : matchUtm l with
  | some ru =>
    rw [hu] at h
    injection h with h1
    exact h1 ▸ matchUtm_length l ru hu
  | none =>
    rw [hu] at h
    cases h1 : matchFixedKey ['s', 'i'] l with
    | some r1 =>
      rw [h1] at h
      injection h with h2
      exact h2 ▸ matchFixedKey_length _ l r1 h1
    | none =>
      rw [h1] at h
      cases h2 : matchFixedKey ['f', 'e', 'a', 't', 'u', 'r', 'e'] l with
      | some r2 =>
        rw [h2] at h
        injection h with h3
        exact h3 ▸ matchFixedKey_length _ l r2 h2
      | none =>
        rw [h2] at h
        exact matchFixedKey_length _ l r h

/-- The fixed tracking denylist of line 86, as a predicate on key names:
`si`, `feature`, `ref`, or `utm_` followed by a nonempty run of word
characters (`utm_*`). -/
def isTrackKey (k : List Char) : Bool :=
  k = ['s', 'i'] || k = ['f', 'e', 'a', 't', 'u', 'r', 'e'] || k = ['r', 'e', 'f'] ||
    (k.take 4 = ['u', 't', 'm', '_'] && !(k.drop 4 = []) && (k.drop 4).all isWordChar)

theorem matchTrackKey_key (k v : List Char) (hk : isTrackKey k = true) :
    matchTrackKey (k ++ '=' :: v) = some v := by
  unfold isTrackKey at hk
  simp only [Bool.or_eq_true, Bool.and_eq_true, decide_eq_true_eq, Bool.not_eq_true',
    decide_eq_false_iff_not] at hk
  rcases hk with ((hk | hk) | hk) | ⟨⟨hk4, hkne⟩, hkw⟩
  · subst hk
    simp [matchTrackKey, matchUtm, matchFixedKey, List.isPrefixOf]
  · subst hk
    simp [matchTrackKey, matchUtm, matchFixedKey, List.isPrefixOf]
  · subst hk
    simp [matchTrackKey, matchUtm, matchFixedKey, List.isPrefixOf]
  · have hk4' : 4 ≤ k.length := by
      have := congrArg List.length hk4
      simp [List.length_take] at this
      omega
    have hksplit : k = ['u', 't', 'm', '_'] ++ k.drop 4 := by
      conv_lhs => rw [← List.take_append_drop 4 k]
      rw [hk4]
    unfold matchTrackKey matchUtm
    have hpre : (['u', 't', 'm', '_'].isPrefixOf (k ++ '=' :: v)) = true := by
      rw [List.isPrefixOf_iff_prefix]
      conv_rhs => rw [hksplit]
      rw [List.append_assoc]
      exact List.prefix_append _ _
    rw [hpre]
    simp only [if_true]
    have hdrop : (k ++ '=' :: v).drop 4 = k.drop 4 ++ '=' :: v := by
      rw [List.drop_append_of_le_length hk4']
    rw [hdrop]
    have hwall : ∀ x ∈ k.drop 4, isWordChar x = true := by
      rw [List.all_eq_true] at hkw
      exact fun x hx => hkw x hx
    have heq : isWordChar '=' = false := by decide
    rw [takeWhile_append_stop isWordChar '=' heq (k.drop 4) v,
      dropWhile_append_stop isWordChar '=' heq (k.drop 4) v]
    rw [takeWhile_all_true isWordChar (k.drop 4) hwall,
      dropWhile_all_true isWordChar (k.drop 4) hwall]
    simp [hkne]

theorem stripAux_fuel (f1 : Nat) :
    ∀ (f2 : Nat) (l : List Char), l.length ≤ f1 → l.length ≤ f2 →
      stripAux f1 l = stripAux f2 l := by
  induction f1 with
  | zero =>
    intro f2 l h1 _
    have : l = [] := List.eq_nil_of_length_eq_zero (Nat.le_zero.mp h1)
    subst this
    rw [stripAux_nil, stripAux_nil]
  | succ f1' ih =>
    intro f2 l h1 h2
    cases l with
    | nil => rw [stripAux_nil, stripAux_nil]
    | cons c rest =>
      cases f2 with
      | zero => simp at h2
      | succ f2' =>
        rw [stripAux, stripAux]
        have hr : rest.length ≤ f1' := by
          simp only [List.length_cons] at h1
          omega
        have hr2 : rest.length ≤ f2' := by
          simp only [List.length_cons] at h2
          omega
        by_cases hc : (decide (c = '?') || decide (c = '&')) = true
        · rw [hc]
          simp only [if_true]
          cases hm : matchTrackKey rest with
          | some r =>
            have hrlen := matchTrackKey_length rest r hm
            have hdw : (r.dropWhile (· != '&')).length ≤ r.length :=
              (List.dropWhile_sublist _).length_le
            exact ih f2' (r.dropWhile (· != '&')) (by omega) (by omega)
          | none =>
            rw [ih f2' rest hr hr2]
        · rw [Bool.of_not_eq_true hc]
          simp only [Bool.false_eq_true, if_false]
          rw [ih f2' rest hr hr2]

theorem stripAux_sep_key (F : Nat) (c : Char) (k v : List Char)
    (hc : (decide (c = '?') || decide (c = '&')) = true)
    (hk : isTrackKey k = true) (hv : '&' ∉ v) :
    stripAux (F + 1) (c :: (k ++ '=' :: v)) = [] := by
  rw [stripAux, hc]
  simp only [if_true]
  rw [matchTrackKey_key k v hk]
  have hall : ∀ x ∈ v, (x != '&') = true := by
    intro x hx
    have : x ≠ '&' := fun h => hv (h ▸ hx)
    simpa using this
  show stripAux F (v.dropWhile (· != '&')) = []
  rw [dropWhile_all_true _ v hall, stripAux_nil]

theorem stripAux_append_amp (F : Nat) :
    ∀ (l t : List Char), (l ++ '&' :: t).length ≤ F →
      stripAux F (l ++ '&' :: t) =
        stripAux l.length l ++ stripAux ('&' :: t).length ('&' :: t) := by
  induction F with
  | zero =>
    intro l t hF
    simp at hF
  | succ F' ih =>
    intro l t hF
    cases l with
    | nil =>
      simp only [List.nil_append, List.length_nil, stripAux_nil, List.nil_append]
      exact stripAux_fuel (F' + 1) ('&' :: t).length ('&' :: t) (by simpa using hF)
        (le_refl _)
    | cons c rest =>
      have hF' : (rest ++ '&' :: t).length ≤ F' := by
        simp only [List.cons_append, List.length_cons] at hF
        simpa using Nat.le_of_succ_le_succ hF
      rw [List.cons_append, stripAux]
      rw [List.length_cons, stripAux]
      by_cases hc : (decide (c = '?') || decide (c = '&')) = true
      · rw [hc]
        simp only [if_true]
        rw [matchTrackKey_append rest t]
        cases hm : matchTrackKey rest with
        | none =>
          simp only [Option.map_none']
          rw [ih rest t hF']
          rw [List.cons_append]
        | some r =>
          simp only [Option.map_some']
          rw [dropWhile_append_stop (· != '&') '&' (by decide) r t]
          have hrlen := matchTrackKey_length rest r hm
          have hdw : (r.dropWhile (· != '&')).length ≤ r.length :=
            (List.dropWhile_sublist _).length_le
          have hfuel : ((r.dropWhile (· != '&')) ++ '&' :: t).length ≤ F' := by
            simp only [List.length_append, List.length_cons] at hF' ⊢
            omega
          rw [ih (r.dropWhile (· != '&')) t hfuel]
          congr 1
          exact (stripAux_fuel rest.length (r.dropWhile (· != '&')).length
            (r.dropWhile (· != '&')) (by omega) (le_refl _)).symm
      · rw [Bool.of_not_eq_true hc]
        simp only [Bool.false_eq_true, if_false]
        rw [ih rest t hF']
        simp only [List.cons_append]

theorem stripAux_no_trigger :
    ∀ (l t : List Char) (F : Nat), (∀ c ∈ l, (decide (c = '?') || decide (c = '&')) = false) →
      stripAux (l.length + F) (l ++ t) = l ++ stripAux F t := by
  intro l
  induction l with
  | nil => simp
  | cons c l' ih =>
    intro t F h
    have hc := h c (List.mem_cons_self c l')
    have hrest : ∀ x ∈ l', (decide (x = '?') || decide (x = '&')) = false :=
      fun x hx => h x (List.mem_cons_of_mem c hx)
    have hlen : (c :: l').length + F = (l'.length + F) + 1 := by
      simp only [List.length_cons]
      omega
    rw [hlen, List.cons_append, stripAux, hc]
    simp only [Bool.false_eq_true, if_false]
    rw [ih t F hrest]
    rfl

/-- The key append fact behind the amended C1: a trailing `&k=v` tracking
parameter (with `k` on the denylist and `v` free of `&`) is stripped away
entirely, leaving the normalization of the prefix unchanged. -/
theorem stripTracking_append_amp (u : String) (k v : List Char)
    (hk : isTrackKey k = true) (hv : '&' ∉ v) :
    stripAux (u.data ++ '&' :: (k ++ '=' :: v)).length (u.data ++ '&' :: (k ++ '=' :: v)) =
      stripAux u.data.length u.data := by
  rw [stripAux_append_amp _ u.data (k ++ '=' :: v) (le_refl _)]
  rw [List.length_cons, stripAux_sep_key _ '&' k v (by decide) hk hv]
  simp

set_option maxRecDepth 1000000 in
/-- C1 counterexample: `https://youtu.be/abc?si=x&t=5` and
`https://youtu.be/abc?t=5` differ only in the denylisted tracking parameter
`si`, yet `_get_url_hash` maps them to different keys — the regex removes the
leading `?si=x` together with its `?`, leaving `...abc&t=5` rather than
`...abc?t=5`. -/
theorem c1_counterexample :
    _get_url_hash "https://youtu.be/abc?si=x&t=5" ≠ _get_url_hash "https://youtu.be/abc?t=5" := by
  decide

/-- C1 (amended): hashing is invariant under *appending* a denylisted
tracking parameter at the end of the URL — `u&k=v` for any `u`, and `u?k=v`
whenever `u` has no query yet (no `?` or `&`), with `k` on the denylist
(`si`, `feature`, `ref`, `utm_*`) and `v` free of `&`.  The claim's full
universal form fails (see the counterexample) because stripping a denylisted
parameter that sits directly after `?` does not restore the `?` on the next
retained parameter. -/
theorem c1_amended_trailing_params :
    (∀ (u k v : String), isTrackKey k.data = true → '&' ∉ v.data →
      _get_url_hash (u ++ "&" ++ k ++ "=" ++ v) = _get_url_hash u) ∧
    (∀ (u k v : String), (∀ c ∈ u.data, c ≠ '?' ∧ c ≠ '&') →
      isTrackKey k.data = true → '&' ∉ v.data →
      _get_url_hash (u ++ "?" ++ k ++ "=" ++ v) = _get_url_hash u) := by
  have hamp : ("&" : String).data = ['&'] := rfl
  have hqm : ("?" : String).data = ['?'] := rfl
  have heq : ("=" : String).data = ['='] := rfl
  constructor
  · intro u k v hk hv
    have hdata : (u ++ "&" ++ k ++ "=" ++ v).data =
        u.data ++ '&' :: (k.data ++ '=' :: v.data) := by
      rw [String.data_append, String.data_append, String.data_append, String.data_append,
        hamp, heq]
      simp
    have hstrip : stripTracking (u ++ "&" ++ k ++ "=" ++ v) = stripTracking u := by
      unfold stripTracking
      rw [hdata, stripTracking_append_amp u k.data v.data hk hv]
    unfold _get_url_hash
    rw [hstrip]
  · intro u k v hu hk hv
    have hnt : ∀ c ∈ u.data, (decide (c = '?') || decide (c = '&')) = false := by
      intro c hc
      obtain ⟨h1, h2⟩ := hu c hc
      simp [h1, h2]
    have hdata : (u ++ "?" ++ k ++ "=" ++ v).data =
        u.data ++ '?' :: (k.data ++ '=' :: v.data) := by
      rw [String.data_append, String.data_append, String.data_append, String.data_append,
        hqm, heq]
      simp
    have hid : stripAux u.data.length u.data = u.data := by
      have h0 := stripAux_no_trigger u.data [] 0 hnt
      rw [stripAux_nil, List.append_nil, Nat.add_zero] at h0
      exact h0
    have hstrip : stripTracking (u ++ "?" ++ k ++ "=" ++ v) = stripTracking u := by
      unfold stripTracking
      rw [hdata]
      have hlen : (u.data ++ '?' :: (k.data ++ '=' :: v.data)).length =
          u.data.length + ('?' :: (k.data ++ '=' :: v.data)).length := by
        simp
      rw [hlen, stripAux_no_trigger u.data ('?' :: (k.data ++ '=' :: v.data)) _ hnt]
      rw [List.length_cons, stripAux_sep_key _ '?' k.data v.data (by decide) hk hv]
      rw [hid]
      simp
    unfold _get_url_hash
    rw [hstrip]

set_option maxRecDepth 1000000 in
/-- C1 witness for the amended theorem: the spec's own scenario pair,
`https://youtu.be/abc123?si=xyz` versus `https://youtu.be/abc123`, collides. -/
theorem c1_witness :
    isTrackKey ("si" : String).data = true ∧
    '&' ∉ ("xyz" : String).data ∧
    (∀ c ∈ ("https://youtu.be/abc123" : String).data, c ≠ '?' ∧ c ≠ '&') ∧
    _get_url_hash ("https://youtu.be/abc123" ++ "?" ++ "si" ++ "=" ++ "xyz") =
      _get_url_hash "https://youtu.be/abc123" :=
  ⟨by decide, by decide, by decide,
   c1_amended_trailing_params.2 "https://youtu.be/abc123" "si" "xyz" (by decide) (by decide)
     (by decide)⟩

end RDB
